import Mathlib

/-!
Shallow embedding of the deformetrica diffeomorphic deformation engine:
the `Exponential` class (geodesic shooting, flow of template points,
parallel transport with its Cholesky cache) from
`src/core/model_tools/deformations/exponential.py`, and the `Geodesic`
class (two-sided composition) from
`src/core/model_tools/deformations/geodesic.py`.

Tensors are modelled as lists of rows of real numbers (`Mat`).  The kernel
object is a record of the two operations the engine consumes
(`convolve`, `convolve_gradient`) plus the Gram-matrix accessor used by
parallel transport; the concrete Gaussian kernel is modelled from the
spec (its implementation lives outside the embedded sources).  Elementwise
tensor arithmetic acts on the row data; `torch.dot` flattens its
arguments, which `dotM` mirrors.  Python asserts that abort are modelled
with `Except Fault`; warnings are non-fatal and modelled as pure
predicates on the state.
-/

namespace Deformetrica

noncomputable section

abbrev Vec := List ℝ
abbrev Mat := List (List ℝ)

def vadd (a b : Vec) : Vec := List.zipWith (· + ·) a b

def vsub (a b : Vec) : Vec := List.zipWith (· - ·) a b

def vscale (c : ℝ) (a : Vec) : Vec := a.map (fun x => c * x)

def dotV (a b : Vec) : ℝ := (List.zipWith (· * ·) a b).sum

def vsum : List Vec → Vec
  | [] => []
  | v :: t => t.foldl vadd v

def matAdd (a b : Mat) : Mat := List.zipWith vadd a b

def matSub (a b : Mat) : Mat := List.zipWith vsub a b

def smulMat (c : ℝ) (a : Mat) : Mat := a.map (vscale c)

def flat (m : Mat) : Vec := m.flatten

/-- Flattening dot product, mirroring the legacy `torch.dot` used by the
source, which treats both tensors as 1-D. -/
def dotM (a b : Mat) : ℝ := dotV (flat a) (flat b)

def sqDist (x y : Vec) : ℝ := (List.zipWith (fun a b => (a - b) ^ 2) x y).sum

/-- Shape of a rectangular tensor (row count, row length). -/
def matShape (m : Mat) : List ℕ := [m.length, (m.headD []).length]

/-- Kernel interface consumed by the engine: `convolve (q, s, w)` samples the
vector field at the query points, `convolve_gradient (w, x)` is the gradient
of the quadratic form, and `get_kernel_matrix` returns the Gram matrix. -/
structure Kernel where
  kernel_width : ℝ
  convolve : Mat → Mat → Mat → Mat
  convolve_gradient : Mat → Mat → Mat
  get_kernel_matrix : Mat → Mat

/-- Modelled from the spec: the Gaussian radial basis
`K (x, y) = exp (-dist (x, y) ^ 2 / width ^ 2)`; `convolve` sums the
kernel-weighted momenta over the source points
(the kernel implementation is not among the embedded source files). -/
noncomputable def gaussConvolve (w : ℝ) (q s p : Mat) : Mat :=
  q.map (fun xi =>
    vsum (List.zipWith (fun yj pj =>
      vscale (Real.exp (-(sqDist xi yj) / w ^ 2)) pj) s p))

/-- Modelled from the spec: gradient of the quadratic form
`sum i j of (w i . w j) K (x i, x j)` with respect to the points. -/
noncomputable def gaussConvolveGradient (w : ℝ) (p x : Mat) : Mat :=
  List.zipWith (fun xk pk =>
    vsum (List.zipWith (fun xj pj =>
      vscale ((-4 / w ^ 2) * dotV pk pj * Real.exp (-(sqDist xk xj) / w ^ 2))
        (vsub xk xj)) x p)) x p

/-- Modelled from the spec: Gram matrix of the Gaussian kernel on a set of
points, used by parallel transport before the Cholesky solve. -/
noncomputable def gaussKernelMatrix (w : ℝ) (x : Mat) : Mat :=
  x.map (fun xi => x.map (fun xj => Real.exp (-(sqDist xi xj) / w ^ 2)))

/-- Modelled from the spec: the exact (dense) Gaussian kernel produced by
`create_kernel ('exact', width)`. -/
noncomputable def gaussKernel (w : ℝ) : Kernel :=
  { kernel_width := w
    convolve := gaussConvolve w
    convolve_gradient := gaussConvolveGradient w
    get_kernel_matrix := gaussKernelMatrix w }

/-- Hard faults of the engine: the Python asserts that abort, plus the
`TypeError` and `IndexError` a stale read can run into. -/
inductive Fault where
  | staleFlow
  | staleShoot
  | sizeMismatch
  | orthogonality
  | noneType
  | indexError
deriving DecidableEq

/-- State of `Exponential` (exponential.py).  `none` plays the role of the
Python `None` initial values; the two dirty flags start `true`. -/
structure Exponential where
  kernel : Kernel
  number_of_time_points : ℕ
  initial_control_points : Mat
  control_points_t : List Mat
  initial_momenta : Mat
  momenta_t : List Mat
  initial_template_data : Option Mat
  template_data_t : Option (List Mat)
  shoot_is_modified : Bool
  flow_is_modified : Bool
  use_rk2 : Bool
  norm_squared : Option ℝ
  cholesky_kernel_matrices : List Mat

/-- Fresh `Exponential` as built by `__init__` (the unset Python `None`
fields that carry no data are the empty list / `none`; `use_rk2 = None` is
falsy in the shooting branch, hence `false`). -/
def Exponential.init (k : Kernel) : Exponential :=
  { kernel := k
    number_of_time_points := 0
    initial_control_points := []
    control_points_t := []
    initial_momenta := []
    momenta_t := []
    initial_template_data := none
    template_data_t := none
    shoot_is_modified := true
    flow_is_modified := true
    use_rk2 := false
    norm_squared := none
    cholesky_kernel_matrices := [] }

def Exponential.set_use_rk2 (s : Exponential) (b : Bool) : Exponential :=
  { s with shoot_is_modified := true, use_rk2 := b }

def Exponential.set_initial_template_data (s : Exponential) (td : Option Mat) :
    Exponential :=
  { s with initial_template_data := td, flow_is_modified := true }

def Exponential.set_initial_control_points (s : Exponential) (cps : Mat) :
    Exponential :=
  { s with shoot_is_modified := true, initial_control_points := cps }

def Exponential.set_initial_momenta (s : Exponential) (mom : Mat) :
    Exponential :=
  { s with shoot_is_modified := true, initial_momenta := mom }

/-- `_euler_step`: simple Euler step of length `h`. -/
def euler_step (k : Kernel) (cp mom : Mat) (h : ℝ) : Mat × Mat :=
  (matAdd cp (smulMat h (k.convolve cp cp mom)),
   matSub mom (smulMat h (k.convolve_gradient mom cp)))

/-- `_rk2_step` with `return_mom = True`: midpoint RK2 step on the geodesic
equation. -/
def rk2_step (k : Kernel) (cp mom : Mat) (h : ℝ) : Mat × Mat :=
  let midCp := matAdd cp (smulMat (h / 2) (k.convolve cp cp mom))
  let midMom := matSub mom (smulMat (h / 2) (k.convolve_gradient mom cp))
  (matAdd cp (smulMat h (k.convolve midCp midCp midMom)),
   matSub mom (smulMat h (k.convolve_gradient midMom midCp)))

/-- `_rk2_step` with `return_mom = False`: only the new positions. -/
def rk2_step_position (k : Kernel) (cp mom : Mat) (h : ℝ) : Mat :=
  let midCp := matAdd cp (smulMat (h / 2) (k.convolve cp cp mom))
  let midMom := matSub mom (smulMat (h / 2) (k.convolve_gradient mom cp))
  matAdd cp (smulMat h (k.convolve midCp midCp midMom))

/-- One step of the shooting loop, selected by the integrator policy. -/
def shootStep (k : Kernel) (useRk2 : Bool) (dt : ℝ) (st : Mat × Mat) :
    Mat × Mat :=
  if useRk2 then rk2_step k st.1 st.2 dt else euler_step k st.1 st.2 dt

/-- Trajectory built by the `_shoot` loop: the initial state followed by `n`
integrator steps (the source appends one new state per loop iteration). -/
def shootList (k : Kernel) (useRk2 : Bool) (dt : ℝ) :
    ℕ → Mat × Mat → List (Mat × Mat)
  | 0, st => [st]
  | n + 1, st => st :: shootList k useRk2 dt n (shootStep k useRk2 dt st)

/-- `_shoot`: rebuild the control-point and momenta trajectories and set
`norm_squared` from the initial state only. -/
def Exponential.shoot (s : Exponential) : Exponential :=
  let dt : ℝ := 1 / ((s.number_of_time_points : ℝ) - 1)
  let traj := shootList s.kernel s.use_rk2 dt (s.number_of_time_points - 1)
    (s.initial_control_points, s.initial_momenta)
  { s with
    control_points_t := traj.map Prod.fst
    momenta_t := traj.map Prod.snd
    norm_squared := some (dotM s.initial_momenta
      (s.kernel.convolve s.initial_control_points s.initial_control_points
        s.initial_momenta)) }

/-- The `_flow` loop over adjacent trajectory snapshots: Euler advection of
the template points, with Heun's correction under the RK2 policy. -/
def flowSteps (k : Kernel) (useRk2 : Bool) (dt : ℝ) :
    Mat → List (Mat × Mat) → List Mat
  | td, [] => [td]
  | td, [_] => [td]
  | td, (cp, m) :: (cp2, m2) :: rest =>
    let dpos := k.convolve td cp m
    let tdEuler := matAdd td (smulMat dt dpos)
    let tdNext := if useRk2 then
        matAdd td (smulMat (dt / 2) (matAdd (k.convolve tdEuler cp2 m2) dpos))
      else tdEuler
    td :: flowSteps k useRk2 dt tdNext ((cp2, m2) :: rest)

/-- `_flow`: rebuild the template-point trajectory along the shot
control-point/momenta trajectories. -/
def Exponential.flow (s : Exponential) : Exponential :=
  let dt : ℝ := 1 / ((s.number_of_time_points : ℝ) - 1)
  { s with
    template_data_t := some (flowSteps s.kernel s.use_rk2 dt
      (s.initial_template_data.getD [])
      (List.zip s.control_points_t s.momenta_t)) }

/-- `update`: if the shoot is stale, clear the Cholesky cache, re-shoot, and
flow when template data is present; an independently stale flow with
template data present re-runs the flow alone.  Without template data the
source only emits a non-fatal notice and leaves `flow_is_modified` set. -/
def Exponential.update (s : Exponential) : Exponential :=
  let s1 := if s.shoot_is_modified then
      let sClean := { Exponential.shoot
          { s with cholesky_kernel_matrices := [] } with
        shoot_is_modified := false }
      match sClean.initial_template_data with
      | some _ => { sClean.flow with flow_is_modified := false }
      | none => sClean
    else s
  if s1.flow_is_modified then
    match s1.initial_template_data with
    | some _ => { s1.flow with flow_is_modified := false }
    | none => s1
  else s1

/-- `get_template_data`: hard staleness fault when the flow is stale
(`assert False` in the source); then the requested snapshot, the last one
when no index is given. -/
def Exponential.get_template_data (s : Exponential) (time_index : Option ℕ) :
    Except Fault Mat :=
  if s.flow_is_modified then .error Fault.staleFlow
  else
    match s.template_data_t with
    | none => .error Fault.noneType
    | some l =>
      match time_index with
      | none => match l.getLast? with
        | some x => .ok x
        | none => .error Fault.indexError
      | some i => match l.get? i with
        | some x => .ok x
        | none => .error Fault.indexError

/-- `get_norm_squared` never hard-faults: a stale shoot only triggers a
non-fatal warning and the stored value is returned as is. -/
def Exponential.get_norm_squared (s : Exponential) : Except Fault (Option ℝ) :=
  .ok s.norm_squared

/-- Condition under which `get_norm_squared` emits its warning. -/
def Exponential.get_norm_squared_warns (s : Exponential) : Bool :=
  s.shoot_is_modified

/-- Tensor with an explicit shape ledger.  Elementwise arithmetic in the
transport loop acts on the (flattened) data and keeps the left operand's
shape, as the legacy tensor library does; `mat` carries the data as rows. -/
structure TTen where
  shape : List ℕ
  mat : Mat

/-- View a rectangular matrix as a 2-D tensor. -/
def ofMat (m : Mat) : TTen := ⟨matShape m, m⟩

/-- `squeeze ()`: drop every singleton axis; the data is unchanged. -/
def TTen.squeeze (t : TTen) : TTen := ⟨t.shape.filter (fun n => n ≠ 1), t.mat⟩

/-- One forward-elimination step on the rows below a pivot row. -/
def elimRow (p r : Vec) : Vec :=
  match p, r with
  | a :: ps, b :: rs => List.zipWith (fun x y => y - b / a * x) ps rs
  | _, _ => r

/-- Forward elimination of an augmented matrix into a staircase of
progressively shorter rows. -/
def forwardElim : List Vec → List Vec
  | [] => []
  | r :: rest => r :: forwardElim (rest.map (elimRow r))
termination_by l => l.length
decreasing_by simp [List.length_map]

/-- Back substitution on the staircase, producing the `k` solution columns. -/
def backSub (k : ℕ) : List Vec → List Vec
  | [] => []
  | row :: below =>
    let xs := backSub k below
    match row with
    | [] => xs
    | a :: rest =>
      let coeffs := rest.take (rest.length - k)
      let rhs := rest.drop (rest.length - k)
      let acc := (List.zipWith vscale coeffs xs).foldl vadd (List.replicate k 0)
      (List.zipWith (fun r s => (r - s) / a) rhs acc) :: xs

/-- Modelled from the spec: solve the linear system `A X = B`
(Gaussian elimination stands in for the Cholesky solve `torch.potrs`,
whose implementation is external to the embedded sources). -/
def linSolve (a b : Mat) : Mat :=
  backSub (b.headD []).length (forwardElim (List.zipWith (· ++ ·) a b))

/-- Modelled from the spec: `torch.potrf` computes the Cholesky factor of
the Gram matrix; the factor is represented here by the matrix itself and
`potrs` solves the corresponding system. -/
def potrf (k : Mat) : Mat := k

def potrs (b factor : Mat) : Mat := linSolve factor b

/-- Squared RKHS norm of a covector carried at the given control points. -/
def qform (k : Kernel) (cp m : Mat) : ℝ := dotM m (k.convolve cp cp m)

/-- The renormalization applied at every transport step:
`m * initial_norm / norm_approx` (a ratio of squared norms). -/
def renormalize (initial_norm norm_approx : ℝ) (m : Mat) : Mat :=
  smulMat (initial_norm / norm_approx) m

/-- One iteration of the transport loop, given the Cholesky factor to use
and whether the freshly-computed branch's `squeeze ()` applies (the source
squeezes the solve result only when the factor was just computed): the two
perturbed position-only RK2 steps (instance kernel), the finite-difference
velocity, the solve, the drift removal and the renormalization (exact
kernel). -/
def ptStep (kSelf kExact : Kernel) (h eps ns tnorm : ℝ)
    (cp mom cp2 mom2 : Mat) (prev : TTen) (factor : Mat)
    (squeezeIt : Bool) : TTen :=
  let cpPos := rk2_step_position kSelf cp
    (matAdd mom (smulMat eps prev.mat)) h
  let cpNeg := rk2_step_position kSelf cp
    (matSub mom (smulMat eps prev.mat)) h
  let approxVelocity := smulMat (1 / (2 * eps * h)) (matSub cpPos cpNeg)
  let approxMomenta : TTen :=
    if squeezeIt then
      TTen.squeeze ⟨matShape approxVelocity, potrs approxVelocity factor⟩
    else ⟨matShape approxVelocity, potrs approxVelocity factor⟩
  let scalarProd := dotM approxMomenta.mat
    (kExact.convolve cp2 cp2 mom2) / ns
  let drifted : TTen :=
    ⟨approxMomenta.shape, matSub approxMomenta.mat (smulMat scalarProd mom2)⟩
  ⟨drifted.shape, renormalize tnorm (qform kExact cp2 drifted.mat)
    drifted.mat⟩

/-- The main loop of `parallel_transport` over the adjacent trajectory
snapshots, threading the transported tensor, the Cholesky cache and the
step index.  When the cache is full (`length = T - 1`) the stored factor
for the step is reused and the solve result is not squeezed; otherwise the
factor is computed, appended, and the solve result squeezed. -/
def ptLoop (kSelf kExact : Kernel) (h eps ns tnorm : ℝ) (tm1 : ℕ) :
    List ((Mat × Mat) × (Mat × Mat)) → TTen → List Mat → ℕ →
    List TTen × List Mat
  | [], _, cache, _ => ([], cache)
  | ((cp, mom), (cp2, mom2)) :: rest, prev, cache, i =>
    if cache.length = tm1 then
      let m := ptStep kSelf kExact h eps ns tnorm cp mom cp2 mom2 prev
        (cache.getD i []) false
      let next := ptLoop kSelf kExact h eps ns tnorm tm1 rest m cache (i + 1)
      (m :: next.1, next.2)
    else
      let ch := potrf (kExact.get_kernel_matrix cp2)
      let m := ptStep kSelf kExact h eps ns tnorm cp mom cp2 mom2 prev ch
        true
      let next := ptLoop kSelf kExact h eps ns tnorm tm1 rest m
        (cache ++ [ch]) (i + 1)
      (m :: next.1, next.2)

/-- `parallel_transport (v, with_tangential_component)`: hard faults for a
stale shoot or a shape mismatch, the orthogonal projection with its
orthogonality assert, then the finite-difference transport loop.  The
returned state records the (possibly grown) Cholesky cache, the only field
the source mutates. -/
def Exponential.parallel_transport (s : Exponential)
    (momenta_to_transport : Mat) (with_tangential_component : Bool) :
    Except Fault (List TTen × Exponential) :=
  if s.shoot_is_modified then .error Fault.staleShoot
  else if matShape momenta_to_transport ≠ matShape s.initial_momenta then
    .error Fault.sizeMismatch
  else
    let kernel := gaussKernel s.kernel.kernel_width
    let h : ℝ := 1 / ((s.number_of_time_points : ℝ) - 1)
    let eps := h
    let ns := s.norm_squared.getD 0
    let sp := dotM momenta_to_transport
      (kernel.convolve s.initial_control_points s.initial_control_points
        s.initial_momenta) / ns
    let vOrth := matSub momenta_to_transport (smulMat sp s.initial_momenta)
    let spAssert := dotM vOrth
      (kernel.convolve s.initial_control_points s.initial_control_points
        s.initial_momenta) / ns
    if spAssert < 1e-5 then
      let tnorm := qform kernel s.initial_control_points vOrth
      let pairs := List.zip s.control_points_t s.momenta_t
      let quads := List.zip pairs pairs.tail
      let start := ofMat vOrth
      let res := ptLoop s.kernel kernel h eps ns tnorm
        (s.number_of_time_points - 1) quads start s.cholesky_kernel_matrices 0
      let transport := start :: res.1
      let result := if with_tangential_component then
          List.zipWith (fun (t : TTen) (m : Mat) =>
            (⟨t.shape, matAdd t.mat (smulMat sp m)⟩ : TTen)) transport
            s.momenta_t
        else transport
      .ok (result, { s with cholesky_kernel_matrices := res.2 })
    else .error Fault.orthogonality

/-- Python `int ()` on a real value: truncation toward zero. -/
def pyInt (x : ℝ) : ℤ := if 0 ≤ x then ⌊x⌋ else ⌈x⌉

/-- The number of time points a geodesic side receives:
`max (1, int (delta_t * concentration_of_time_points + 1.5))`. -/
def sideTimePoints (deltaT concentration : ℝ) : ℕ :=
  max 1 (pyInt (deltaT * concentration + 1.5)).toNat

/-- `numpy.linspace` with endpoint included. -/
def linspace (a b : ℝ) (n : ℕ) : List ℝ :=
  (List.range n).map (fun i : ℕ => a + (i : ℝ) * (b - a) / ((n : ℝ) - 1))

/-- Index bookkeeping for `torch.min`: walk the remaining entries keeping
the first index attaining the least value seen so far. -/
def argminAux : List ℝ → ℕ → ℕ → ℝ → ℕ
  | [], _, best, _ => best
  | x :: t, i, best, bv =>
    if x < bv then argminAux t (i + 1) i x else argminAux t (i + 1) best bv

/-- Index of the first minimal entry, as `torch.min (·, 0)` returns it. -/
def argminIdx : List ℝ → ℕ
  | [] => 0
  | x :: t => argminAux t 1 0 x

/-- State of `Geodesic` (geodesic.py): a backward and a forward
`Exponential` sharing the data anchored at `t0`. -/
structure Geodesic where
  concentration_of_time_points : ℝ
  t0 : ℝ
  tmin : ℝ
  tmax : ℝ
  control_points_t0 : Mat
  momenta_t0 : Mat
  template_data_t0 : Option Mat
  backward_exponential : Exponential
  forward_exponential : Exponential
  shoot_is_modified : Bool
  flow_is_modified : Bool

/-- `update`: set each side's number of time points from its elapsed time,
push the (rescaled) momenta, control points and template data according to
the dirty flags, update a side only when it has more than one time point,
then clear the flags.  Requires `tmin <= t0 <= tmax` (hard assert). -/
def Geodesic.update (g : Geodesic) : Geodesic :=
  let deltaB := g.t0 - g.tmin
  let b0 : Exponential := { g.backward_exponential with
    number_of_time_points := sideTimePoints deltaB g.concentration_of_time_points }
  let b1 : Exponential := if g.shoot_is_modified then
      (b0.set_initial_momenta (smulMat (-deltaB) g.momenta_t0)).set_initial_control_points
        g.control_points_t0
    else b0
  let b2 : Exponential := if g.flow_is_modified then
      b1.set_initial_template_data g.template_data_t0
    else b1
  let b3 : Exponential := if 1 < b2.number_of_time_points then b2.update else b2
  let deltaF := g.tmax - g.t0
  let f0 : Exponential := { g.forward_exponential with
    number_of_time_points := sideTimePoints deltaF g.concentration_of_time_points }
  let f1 : Exponential := if g.shoot_is_modified then
      (f0.set_initial_momenta (smulMat deltaF g.momenta_t0)).set_initial_control_points
        g.control_points_t0
    else f0
  let f2 : Exponential := if g.flow_is_modified then
      f1.set_initial_template_data g.template_data_t0
    else f1
  let f3 : Exponential := if 1 < f2.number_of_time_points then f2.update else f2
  { g with
    backward_exponential := b3
    forward_exponential := f3
    shoot_is_modified := false
    flow_is_modified := false }

/-- `get_norm_squared`: the forward side's value. -/
def Geodesic.get_norm_squared (g : Geodesic) : Except Fault (Option ℝ) :=
  g.forward_exponential.get_norm_squared

/-- `_get_times`: backward time axis reversed, then the forward axis with
its first (duplicate) sample dropped; a side with one point contributes
nothing. -/
def Geodesic.get_times (g : Geodesic) : List ℝ :=
  (if 1 < g.backward_exponential.number_of_time_points then
      linspace g.t0 g.tmin g.backward_exponential.number_of_time_points
    else []).reverse ++
  (if 1 < g.forward_exponential.number_of_time_points then
      linspace g.t0 g.tmax g.forward_exponential.number_of_time_points
    else []).drop 1

/-- `_get_template_trajectory`: spliced the same way as the time axis. -/
def Geodesic.get_template_trajectory (g : Geodesic) : List Mat :=
  (if 1 < g.backward_exponential.number_of_time_points then
      g.backward_exponential.template_data_t.getD []
    else []).reverse ++
  (if 1 < g.forward_exponential.number_of_time_points then
      g.forward_exponential.template_data_t.getD []
    else []).drop 1

/-- `get_template_data (time)`: nearest-neighbour lookup of the snapshot
whose time minimizes the squared distance to the query (first index on
ties); `none` models the failing bounds assert or an empty lookup. -/
def Geodesic.get_template_data (g : Geodesic) (time : ℝ) : Option Mat :=
  if g.tmin ≤ time ∧ time ≤ g.tmax then
    g.get_template_trajectory.get?
      (argminIdx (g.get_times.map (fun s => (s - time) ^ 2)))
  else none

/-! Basic facts about the shooting loop. -/

theorem getD_get? {α : Type} (l : List α) (i : ℕ) (d : α) :
    l.getD i d = (l.get? i).getD d := rfl

theorem shootList_length (k : Kernel) (u : Bool) (dt : ℝ) :
    ∀ (n : ℕ) (st : Mat × Mat), (shootList k u dt n st).length = n + 1 := by
  intro n
  induction n with
  | zero => intro st; rfl
  | succ m ih => intro st; simp [shootList, ih]

theorem shootList_get (k : Kernel) (u : Bool) (dt : ℝ) :
    ∀ (n i : ℕ) (st : Mat × Mat), i ≤ n →
      (shootList k u dt n st).get? i = some ((shootStep k u dt)^[i] st) := by
  intro n
  induction n with
  | zero =>
    intro i st hi
    interval_cases i
    rfl
  | succ m ih =>
    intro i st hi
    cases i with
    | zero => rfl
    | succ j =>
      have hj : j ≤ m := by omega
      simp only [shootList, List.get?_cons_succ, ih j _ hj,
        Function.iterate_succ_apply]

/-- `update` leaves the number of time points untouched. -/
theorem update_time_points (s : Exponential) :
    (s.update).number_of_time_points = s.number_of_time_points := by
  unfold Exponential.update
  cases hs : s.shoot_is_modified <;>
    cases htd : s.initial_template_data <;>
      simp [hs, htd, Exponential.flow, Exponential.shoot] <;>
        split <;> simp [Exponential.flow]

/-- After a stale-shoot `update`, the control-point trajectory, momenta
trajectory and conserved norm are those produced by `_shoot`; the flow does
not touch them. -/
theorem update_shoot_fields (s : Exponential) (hsh : s.shoot_is_modified = true) :
    (s.update).control_points_t =
      (shootList s.kernel s.use_rk2 (1 / ((s.number_of_time_points : ℝ) - 1))
        (s.number_of_time_points - 1)
        (s.initial_control_points, s.initial_momenta)).map Prod.fst ∧
    (s.update).momenta_t =
      (shootList s.kernel s.use_rk2 (1 / ((s.number_of_time_points : ℝ) - 1))
        (s.number_of_time_points - 1)
        (s.initial_control_points, s.initial_momenta)).map Prod.snd ∧
    (s.update).norm_squared = some (dotM s.initial_momenta
      (s.kernel.convolve s.initial_control_points s.initial_control_points
        s.initial_momenta)) := by
  unfold Exponential.update
  cases htd : s.initial_template_data <;>
    simp [hsh, htd, Exponential.flow, Exponential.shoot]

/-- Specification of the Euler shoot produced by `update`: trajectories of
length `number_of_time_points` starting at the initial state, adjacent
snapshots related by the Euler step with `dt = 1 / (T - 1)`, and the
conserved norm computed from the initial state only. -/
def EulerShootSpec (s : Exponential) : Prop :=
  (s.update).control_points_t.length = s.number_of_time_points ∧
  (s.update).momenta_t.length = s.number_of_time_points ∧
  (s.update).control_points_t.getD 0 [] = s.initial_control_points ∧
  (s.update).momenta_t.getD 0 [] = s.initial_momenta ∧
  (∀ i, i + 1 < s.number_of_time_points →
    (s.update).control_points_t.getD (i + 1) [] =
      matAdd ((s.update).control_points_t.getD i [])
        (smulMat (1 / ((s.number_of_time_points : ℝ) - 1))
          (s.kernel.convolve ((s.update).control_points_t.getD i [])
            ((s.update).control_points_t.getD i [])
            ((s.update).momenta_t.getD i []))) ∧
    (s.update).momenta_t.getD (i + 1) [] =
      matSub ((s.update).momenta_t.getD i [])
        (smulMat (1 / ((s.number_of_time_points : ℝ) - 1))
          (s.kernel.convolve_gradient ((s.update).momenta_t.getD i [])
            ((s.update).control_points_t.getD i [])))) ∧
  (s.update).norm_squared = some (dotM s.initial_momenta
    (s.kernel.convolve s.initial_control_points s.initial_control_points
      s.initial_momenta))

/-- C1.  Under the Euler policy, with at least two time points and non-empty
initial data, `update` produces trajectories of length exactly `T`
satisfying the Euler recurrences with `dt = 1 / (T - 1)`, and sets
`norm_squared` from the initial state only. -/
theorem euler_shoot_spec (s : Exponential) (hrk : s.use_rk2 = false)
    (hT : 2 ≤ s.number_of_time_points) (hsh : s.shoot_is_modified = true)
    (hcp : s.initial_control_points ≠ []) (hmom : s.initial_momenta ≠ []) :
    EulerShootSpec s := by
  obtain ⟨hc, hm, hn⟩ := update_shoot_fields s hsh
  set dt : ℝ := 1 / ((s.number_of_time_points : ℝ) - 1) with hdt
  set st : Mat × Mat := (s.initial_control_points, s.initial_momenta) with hst
  set n : ℕ := s.number_of_time_points - 1 with hn1
  have hTn : s.number_of_time_points = n + 1 := by omega
  have hgetc : ∀ i, i ≤ n → (s.update).control_points_t.getD i [] =
      ((shootStep s.kernel s.use_rk2 dt)^[i] st).1 := by
    intro i hi
    rw [hc, getD_get?, List.get?_map, shootList_get s.kernel s.use_rk2 dt n i st hi]
    rfl
  have hgetm : ∀ i, i ≤ n → (s.update).momenta_t.getD i [] =
      ((shootStep s.kernel s.use_rk2 dt)^[i] st).2 := by
    intro i hi
    rw [hm, getD_get?, List.get?_map, shootList_get s.kernel s.use_rk2 dt n i st hi]
    rfl
  refine ⟨?_, ?_, ?_, ?_, ?_, hn⟩
  · rw [hc, List.length_map, shootList_length, hTn]
  · rw [hm, List.length_map, shootList_length, hTn]
  · rw [hgetc 0 (Nat.zero_le n)]; rfl
  · rw [hgetm 0 (Nat.zero_le n)]; rfl
  · intro i hi
    have hi1 : i + 1 ≤ n := by omega
    have hi0 : i ≤ n := by omega
    rw [hgetc _ hi1, hgetm _ hi1, hgetc _ hi0, hgetm _ hi0]
    rw [Function.iterate_succ_apply']
    constructor <;>
      simp [shootStep, hrk, euler_step, hdt, one_div]

/-- Identity-convolution kernel used to instantiate the engine on concrete
inputs of the witnesses; the engine is agnostic to the injected kernel. -/
def idKernel : Kernel :=
  { kernel_width := 1
    convolve := fun _ _ w => w
    convolve_gradient := fun w _ => w
    get_kernel_matrix := fun m => m }

def c1exp : Exponential :=
  { kernel := idKernel
    number_of_time_points := 2
    initial_control_points := [[0]]
    control_points_t := []
    initial_momenta := [[1]]
    momenta_t := []
    initial_template_data := none
    template_data_t := none
    shoot_is_modified := true
    flow_is_modified := true
    use_rk2 := false
    norm_squared := none
    cholesky_kernel_matrices := [] }

/-- Witness for C1 at a concrete one-point input. -/
theorem euler_shoot_spec_witness :
    c1exp.use_rk2 = false ∧ 2 ≤ c1exp.number_of_time_points ∧
    c1exp.shoot_is_modified = true ∧ c1exp.initial_control_points ≠ [] ∧
    c1exp.initial_momenta ≠ [] ∧ EulerShootSpec c1exp :=
  ⟨rfl, by norm_num [c1exp], rfl, by simp [c1exp], by simp [c1exp],
    euler_shoot_spec c1exp rfl (by norm_num [c1exp]) rfl (by simp [c1exp])
      (by simp [c1exp])⟩

/-! Norm stability (C9). -/

theorem flow_norm_squared (s : Exponential) :
    (s.flow).norm_squared = s.norm_squared := rfl

theorem flow_shoot_flag (s : Exponential) :
    (s.flow).shoot_is_modified = s.shoot_is_modified := rfl

/-- `update` always leaves the shoot clean. -/
theorem update_shoot_clean (s : Exponential) :
    (s.update).shoot_is_modified = false := by
  unfold Exponential.update
  cases hs : s.shoot_is_modified <;>
    cases htd : s.initial_template_data <;>
      cases hf : s.flow_is_modified <;>
        simp [hs, htd, hf, Exponential.flow, Exponential.shoot]

/-- When the shoot is already clean, `update` only re-runs the flow and in
particular leaves `norm_squared` untouched. -/
theorem update_norm_of_clean (s : Exponential)
    (hs : s.shoot_is_modified = false) :
    (s.update).norm_squared = s.norm_squared := by
  unfold Exponential.update
  cases htd : s.initial_template_data <;>
    cases hf : s.flow_is_modified <;>
      simp [hs, htd, hf, Exponential.flow]

/-- C9.  `norm_squared` is unchanged by re-running `update` with unchanged
inputs, and by a flow-only update (`set_initial_template_data` then
`update`). -/
theorem norm_squared_stable (s : Exponential)
    (hT : 0 < s.number_of_time_points) (td : Mat) :
    ((s.update).update).norm_squared = (s.update).norm_squared ∧
    (((s.update).set_initial_template_data (some td)).update).norm_squared =
      (s.update).norm_squared := by
  constructor
  · exact update_norm_of_clean _ (update_shoot_clean s)
  · have h1 : ((s.update).set_initial_template_data (some td)).shoot_is_modified
        = false := update_shoot_clean s
    rw [update_norm_of_clean _ h1]
    rfl

def c9exp : Exponential :=
  { kernel := idKernel
    number_of_time_points := 2
    initial_control_points := [[0]]
    control_points_t := []
    initial_momenta := [[1]]
    momenta_t := []
    initial_template_data := some [[0]]
    template_data_t := none
    shoot_is_modified := true
    flow_is_modified := true
    use_rk2 := false
    norm_squared := none
    cholesky_kernel_matrices := [] }

/-- Witness for C9 at a concrete input. -/
theorem norm_squared_stable_witness :
    0 < c9exp.number_of_time_points ∧
    (((c9exp.update).update).norm_squared = (c9exp.update).norm_squared ∧
      (((c9exp.update).set_initial_template_data (some [[2]])).update).norm_squared
        = (c9exp.update).norm_squared) :=
  ⟨by norm_num [c9exp], norm_squared_stable c9exp (by norm_num [c9exp]) [[2]]⟩

/-! Staleness behaviour of the derived-state readers (C6). -/

/-- Amended C6.  `get_norm_squared` never hard-faults (a stale shoot only
warns, the stored value is returned); `get_template_data` hard-faults
exactly when the flow flag is stale; and `set_initial_control_points`
leaves the flow flag unchanged, so it cannot provoke that fault by
itself. -/
theorem staleness_warn_only (s : Exponential) (cps : Mat) (i : Option ℕ) :
    s.get_norm_squared = .ok s.norm_squared ∧
    ((s.get_template_data i = .error Fault.staleFlow) ↔
      s.flow_is_modified = true) ∧
    (s.set_initial_control_points cps).flow_is_modified =
      s.flow_is_modified := by
  refine ⟨rfl, ?_, rfl⟩
  unfold Exponential.get_template_data
  cases hf : s.flow_is_modified
  · cases htd : s.template_data_t with
    | none => simp
    | some l =>
      cases i with
      | none => cases hl : l.getLast? <;> simp [hl]
      | some j => cases hl : l[j]? <;> simp [hl]
  · simp

def c6base : Exponential :=
  { kernel := idKernel
    number_of_time_points := 2
    initial_control_points := [[0]]
    control_points_t := []
    initial_momenta := [[1]]
    momenta_t := []
    initial_template_data := some [[0]]
    template_data_t := none
    shoot_is_modified := true
    flow_is_modified := true
    use_rk2 := false
    norm_squared := none
    cholesky_kernel_matrices := [] }

/-- Counterexample to C6 as stated: after an `update` followed by
`set_initial_control_points` (shoot stale, no intervening update), both
`get_norm_squared` and `get_template_data` succeed, returning the stale
values instead of signalling a fault. -/
theorem staleness_counterexample :
    ((c6base.update).set_initial_control_points [[5]]).shoot_is_modified
      = true ∧
    ((c6base.update).set_initial_control_points [[5]]).get_norm_squared
      = .ok (some 1) ∧
    ((c6base.update).set_initial_control_points [[5]]).get_template_data none
      = .ok [[1]] := by
  refine ⟨rfl, ?_, ?_⟩ <;>
    norm_num [c6base, Exponential.update, Exponential.shoot, Exponential.flow,
      shootList, shootStep, euler_step, idKernel, matAdd, matSub, smulMat,
      vadd, vsub, vscale, dotM, dotV, flat, vsum, flowSteps,
      Exponential.set_initial_control_points, Exponential.get_template_data,
      Exponential.get_norm_squared]

/-! Cholesky-cache lifecycle (C8). -/

/-- Amended C8.  The cache is invalidated at the next `update` after the
shoot becomes stale (not at setter time), and `parallel_transport` refuses
to run at all while the shoot is stale, so a stale cache is never read. -/
theorem cache_cleared_on_update (s : Exponential)
    (h : s.shoot_is_modified = true) :
    (s.update).cholesky_kernel_matrices = [] ∧
    ∀ v b, s.parallel_transport v b = .error Fault.staleShoot := by
  constructor
  · unfold Exponential.update
    cases htd : s.initial_template_data <;>
      simp [h, htd, Exponential.flow, Exponential.shoot]
  · intro v b
    simp [Exponential.parallel_transport, h]

def c8base : Exponential :=
  { kernel := gaussKernel 1
    number_of_time_points := 2
    initial_control_points := [[0]]
    control_points_t := []
    initial_momenta := [[1]]
    momenta_t := []
    initial_template_data := none
    template_data_t := none
    shoot_is_modified := true
    flow_is_modified := true
    use_rk2 := false
    norm_squared := none
    cholesky_kernel_matrices := [] }

def c8upd : Exponential := c8base.update

/-- The state reached by updating, running one parallel transport (which
fills the Cholesky cache) and then re-setting the control points. -/
def c8after : Exponential :=
  match c8upd.parallel_transport [[2]] true with
  | .ok (_, s) => s.set_initial_control_points [[1]]
  | .error _ => c8upd

/-- Witness for the amended C8 at a concrete stale state. -/
theorem cache_cleared_on_update_witness :
    c8base.shoot_is_modified = true ∧
    ((c8base.update).cholesky_kernel_matrices = [] ∧
      ∀ v b, c8base.parallel_transport v b = .error Fault.staleShoot) :=
  ⟨rfl, cache_cleared_on_update c8base rfl⟩

/-- Counterexample to C8 as stated: between `set_initial_control_points`
and the next `update`, the shoot is stale while the Cholesky cache filled
by an earlier transport is still non-empty. -/
theorem cache_invalidation_counterexample :
    c8after.shoot_is_modified = true ∧
    c8after.cholesky_kernel_matrices ≠ [] := by
  have hupd : c8upd =
      { kernel := gaussKernel 1
        number_of_time_points := 2
        initial_control_points := [[0]]
        control_points_t := [[[0]], [[1]]]
        initial_momenta := [[1]]
        momenta_t := [[[1]], [[1]]]
        initial_template_data := none
        template_data_t := none
        shoot_is_modified := false
        flow_is_modified := true
        use_rk2 := false
        norm_squared := some 1
        cholesky_kernel_matrices := [] } := by
    norm_num [c8upd, c8base, Exponential.update, Exponential.shoot,
      shootList, shootStep, euler_step, gaussKernel, gaussConvolve,
      gaussConvolveGradient, sqDist, matAdd, matSub, smulMat, vadd, vsub,
      vscale, dotM, dotV, flat, vsum, Real.exp_zero]
  constructor <;>
    · unfold c8after
      rw [hupd]
      norm_num [Exponential.parallel_transport, ptLoop, ptStep,
        rk2_step_position,
        potrf, potrs, linSolve, forwardElim, backSub, elimRow, gaussKernel,
        gaussConvolve, gaussConvolveGradient, gaussKernelMatrix, sqDist,
        matShape, ofMat, TTen.squeeze, qform, renormalize, dotM, dotV, flat,
        vsum, vadd, vsub, vscale, matAdd, matSub, smulMat, Real.exp_zero,
        Exponential.set_initial_control_points]

/-! The transport renormalization step (C2). -/

theorem dotV_scale (c : ℝ) :
    ∀ a b : Vec, dotV (a.map (fun x => c * x)) (b.map (fun x => c * x)) =
      c ^ 2 * dotV a b := by
  intro a
  induction a with
  | nil => intro b; simp [dotV]
  | cons x t ih =>
    intro b
    cases b with
    | nil => simp [dotV]
    | cons y u => simp [dotV] at ih ⊢; rw [ih]; ring

theorem flat_smulMat (c : ℝ) (a : Mat) :
    flat (smulMat c a) = (flat a).map (fun x => c * x) := by
  induction a with
  | nil => rfl
  | cons r t ih => simp [flat, smulMat, vscale] at ih ⊢; exact ih

theorem dotM_smul_smul (c : ℝ) (a b : Mat) :
    dotM (smulMat c a) (smulMat c b) = c ^ 2 * dotM a b := by
  rw [dotM, flat_smulMat, flat_smulMat, dotV_scale, dotM]

/-- C2 (code defect).  The renormalization the transport loop applies,
`m * initial_norm / norm_approx`, scales the squared RKHS norm to
`initial_norm ^ 2 / norm_approx`; whenever the measured squared norm
differs from the recorded target, the renormalized vector does not have
squared norm `initial_norm` — the step fails to preserve the RKHS norm it
is meant to restore (the factor is a ratio of squared norms; restoring the
norm would require its square root). -/
theorem renormalization_not_norm_preserving (k : Kernel) (cp m : Mat)
    (t : ℝ)
    (hlin : ∀ (c : ℝ) w, k.convolve cp cp (smulMat c w) =
      smulMat c (k.convolve cp cp w))
    (ha0 : qform k cp m ≠ 0) (ht0 : t ≠ 0) (hne : qform k cp m ≠ t) :
    qform k cp (renormalize t (qform k cp m) m) ≠ t := by
  have hq : qform k cp (renormalize t (qform k cp m) m) =
      (t / qform k cp m) ^ 2 * qform k cp m := by
    unfold qform renormalize
    rw [hlin, dotM_smul_smul]
  rw [hq]
  intro hcontra
  apply hne
  have hc : t ^ 2 * qform k cp m = t * qform k cp m ^ 2 := by
    field_simp at hcontra
    linear_combination hcontra
  have h5 : t * (t * qform k cp m) = t * (qform k cp m * qform k cp m) := by
    linear_combination hc
  exact (mul_right_cancel₀ ha0 (mul_left_cancel₀ ht0 h5)).symm

/-- Witness for the renormalization defect at a concrete input:
squared norm 2, target 1; the renormalized vector has squared norm
`1 / 2`, not `1`. -/
theorem renormalization_not_norm_preserving_witness :
    qform idKernel [[0]] [[1, 1]] ≠ 0 ∧ (1 : ℝ) ≠ 0 ∧
    qform idKernel [[0]] [[1, 1]] ≠ 1 ∧
    qform idKernel [[0]]
      (renormalize 1 (qform idKernel [[0]] [[1, 1]]) [[1, 1]]) ≠ 1 :=
  ⟨by norm_num [qform, idKernel, dotM, dotV, flat],
   by norm_num,
   by norm_num [qform, idKernel, dotM, dotV, flat],
   renormalization_not_norm_preserving idKernel [[0]] [[1, 1]] 1
     (fun c w => rfl)
     (by norm_num [qform, idKernel, dotM, dotV, flat])
     (by norm_num)
     (by norm_num [qform, idKernel, dotM, dotV, flat])⟩

/-! Concrete one-control-point Euler scenario (C10). -/

def c10exp : Exponential :=
  { kernel := gaussKernel 1
    number_of_time_points := 2
    initial_control_points := [[0]]
    control_points_t := []
    initial_momenta := [[1]]
    momenta_t := []
    initial_template_data := some [[0]]
    template_data_t := none
    shoot_is_modified := true
    flow_is_modified := true
    use_rk2 := false
    norm_squared := none
    cholesky_kernel_matrices := [] }

/-- C10.  One control point at the origin in 1-D, momentum 1, Gaussian
width 1, `T = 2`, Euler policy: `update` yields `norm_squared = 1` and the
co-located template point is flowed to position `1` (displacement exactly
`1`). -/
theorem concrete_euler_scenario :
    (c10exp.update).norm_squared = some 1 ∧
    (c10exp.update).get_template_data none = .ok [[1]] := by
  constructor <;>
    norm_num [c10exp, Exponential.update, Exponential.shoot,
      Exponential.flow, Exponential.get_template_data, shootList, shootStep,
      euler_step, flowSteps, gaussKernel, gaussConvolve,
      gaussConvolveGradient, sqDist, matAdd, matSub, smulMat, vadd, vsub,
      vscale, dotM, dotV, flat, vsum, Real.exp_zero]

/-! Number of time points of the geodesic sides (C3). -/

theorem geo_update_time_points (g : Geodesic) :
    (g.update).backward_exponential.number_of_time_points =
      sideTimePoints (g.t0 - g.tmin) g.concentration_of_time_points ∧
    (g.update).forward_exponential.number_of_time_points =
      sideTimePoints (g.tmax - g.t0) g.concentration_of_time_points := by
  constructor <;>
    · simp only [Geodesic.update, Exponential.set_initial_momenta,
        Exponential.set_initial_control_points,
        Exponential.set_initial_template_data]
      split_ifs <;> simp [update_time_points]

theorem sideTimePoints_round (d c : ℝ) (hd : 0 ≤ d) (hc : 0 ≤ c) :
    sideTimePoints d c = max 1 (round (d * c) + 1).toNat := by
  unfold sideTimePoints pyInt
  have hx : (0 : ℝ) ≤ d * c + 1.5 := by
    have := mul_nonneg hd hc
    linarith
  rw [if_pos hx]
  have hfloor : ⌊d * c + 1.5⌋ = round (d * c) + 1 := by
    rw [round_eq]
    have h15 : d * c + 1.5 = (d * c + 1 / 2) + 1 := by ring
    rw [h15, Int.floor_add_one]
  rw [hfloor]

/-- Amended C3.  Each side's `number_of_time_points` is
`max (1, int (concentration * elapsed + 1.5))`, i.e.
`max (1, round (concentration * elapsed) + 1)` with round-half-up — one
more than the claimed `round (concentration * elapsed + 0.5)`. -/
theorem side_time_points_formula (g : Geodesic) (h1 : g.tmin ≤ g.t0)
    (h2 : g.t0 ≤ g.tmax) (hc : 0 < g.concentration_of_time_points) :
    (g.update).backward_exponential.number_of_time_points =
      max 1 (round ((g.t0 - g.tmin) * g.concentration_of_time_points) + 1).toNat ∧
    (g.update).forward_exponential.number_of_time_points =
      max 1 (round ((g.tmax - g.t0) * g.concentration_of_time_points) + 1).toNat := by
  obtain ⟨hb, hf⟩ := geo_update_time_points g
  rw [hb, hf, sideTimePoints_round _ _ (by linarith) hc.le,
    sideTimePoints_round _ _ (by linarith) hc.le]
  exact ⟨rfl, rfl⟩

def c3geo : Geodesic :=
  { concentration_of_time_points := 1
    t0 := 3 / 5
    tmin := 0
    tmax := 3 / 5
    control_points_t0 := [[0]]
    momenta_t0 := [[1]]
    template_data_t0 := none
    backward_exponential := Exponential.init idKernel
    forward_exponential := Exponential.init idKernel
    shoot_is_modified := true
    flow_is_modified := true }

/-- Counterexample to C3 as stated: with `concentration = 1` and a backward
elapsed time of `0.6`, the code gives `int (0.6 + 1.5) = 2` time points
while the claimed formula `max (1, round (0.6 + 0.5)) = max (1, round 1.1)`
gives `1`. -/
theorem side_time_points_counterexample :
    (c3geo.update).backward_exponential.number_of_time_points ≠
      max 1 (round ((c3geo.t0 - c3geo.tmin) *
        c3geo.concentration_of_time_points + 0.5)).toNat := by
  obtain ⟨hb, _⟩ := geo_update_time_points c3geo
  rw [hb]
  have h1 : sideTimePoints (c3geo.t0 - c3geo.tmin)
      c3geo.concentration_of_time_points = 2 := by
    norm_num [sideTimePoints, pyInt, c3geo]
    rfl
  have h2 : max 1 (round ((c3geo.t0 - c3geo.tmin) *
      c3geo.concentration_of_time_points + 0.5)).toNat = 1 := by
    norm_num [round_eq, c3geo]
  rw [h1, h2]
  norm_num

/-- Witness for the amended C3 at a concrete input. -/
theorem side_time_points_formula_witness :
    c3geo.tmin ≤ c3geo.t0 ∧ c3geo.t0 ≤ c3geo.tmax ∧
    0 < c3geo.concentration_of_time_points ∧
    ((c3geo.update).backward_exponential.number_of_time_points =
      max 1 (round ((c3geo.t0 - c3geo.tmin) *
        c3geo.concentration_of_time_points) + 1).toNat ∧
    (c3geo.update).forward_exponential.number_of_time_points =
      max 1 (round ((c3geo.tmax - c3geo.t0) *
        c3geo.concentration_of_time_points) + 1).toNat) :=
  ⟨by norm_num [c3geo], by norm_num [c3geo], by norm_num [c3geo],
    side_time_points_formula c3geo (by norm_num [c3geo])
      (by norm_num [c3geo]) (by norm_num [c3geo])⟩

/-! Norms of the two geodesic sides (C4). -/

theorem update_norm (s : Exponential) (hsh : s.shoot_is_modified = true) :
    (s.update).norm_squared = some (dotM s.initial_momenta
      (s.kernel.convolve s.initial_control_points s.initial_control_points
        s.initial_momenta)) :=
  (update_shoot_fields s hsh).2.2

theorem geo_update_backward_norm (g : Geodesic)
    (hsh : g.shoot_is_modified = true)
    (hb : 1 < sideTimePoints (g.t0 - g.tmin) g.concentration_of_time_points) :
    (g.update).backward_exponential.norm_squared =
      some (dotM (smulMat (-(g.t0 - g.tmin)) g.momenta_t0)
        (g.backward_exponential.kernel.convolve g.control_points_t0
          g.control_points_t0 (smulMat (-(g.t0 - g.tmin)) g.momenta_t0))) := by
  cases hfl : g.flow_is_modified <;>
    · simp only [Geodesic.update, hsh, hfl, Exponential.set_initial_momenta,
        Exponential.set_initial_control_points,
        Exponential.set_initial_template_data, if_true, Bool.false_eq_true,
        if_false]
      rw [if_pos hb, update_norm _ rfl]

theorem geo_update_forward_norm (g : Geodesic)
    (hsh : g.shoot_is_modified = true)
    (hf : 1 < sideTimePoints (g.tmax - g.t0) g.concentration_of_time_points) :
    (g.update).forward_exponential.norm_squared =
      some (dotM (smulMat (g.tmax - g.t0) g.momenta_t0)
        (g.forward_exponential.kernel.convolve g.control_points_t0
          g.control_points_t0 (smulMat (g.tmax - g.t0) g.momenta_t0))) := by
  cases hfl : g.flow_is_modified <;>
    · simp only [Geodesic.update, hsh, hfl, Exponential.set_initial_momenta,
        Exponential.set_initial_control_points,
        Exponential.set_initial_template_data, if_true, Bool.false_eq_true,
        if_false]
      rw [if_pos hf, update_norm _ rfl]

/-- Amended C4.  `get_norm_squared` returns the forward side's value; the
two sides' conserved norms are not equal in general but satisfy
`(tmax - t0) ^ 2 * backward = (t0 - tmin) ^ 2 * forward` — each side's
norm carries the square of its own elapsed time, so they coincide only
when the two elapsed times agree (or the base norm vanishes). -/
theorem geodesic_norm_relation (g : Geodesic)
    (hsh : g.shoot_is_modified = true)
    (hb : 1 < sideTimePoints (g.t0 - g.tmin) g.concentration_of_time_points)
    (hf : 1 < sideTimePoints (g.tmax - g.t0) g.concentration_of_time_points)
    (hk : g.backward_exponential.kernel = g.forward_exponential.kernel)
    (hkf : ∀ (c : ℝ) q s w, g.forward_exponential.kernel.convolve q s
      (smulMat c w) = smulMat c (g.forward_exponential.kernel.convolve q s w)) :
    (g.update).get_norm_squared =
      .ok ((g.update).forward_exponential.norm_squared) ∧
    (g.tmax - g.t0) ^ 2 *
        ((g.update).backward_exponential.norm_squared).getD 0 =
      (g.t0 - g.tmin) ^ 2 *
        ((g.update).forward_exponential.norm_squared).getD 0 := by
  refine ⟨rfl, ?_⟩
  rw [geo_update_backward_norm g hsh hb, geo_update_forward_norm g hsh hf,
    hk, hkf, hkf, dotM_smul_smul, dotM_smul_smul]
  simp only [Option.getD_some]
  ring

def c4geo : Geodesic :=
  { concentration_of_time_points := 1
    t0 := 1
    tmin := 0
    tmax := 3
    control_points_t0 := [[0]]
    momenta_t0 := [[1]]
    template_data_t0 := none
    backward_exponential := Exponential.init (gaussKernel 1)
    forward_exponential := Exponential.init (gaussKernel 1)
    shoot_is_modified := true
    flow_is_modified := true }

/-- Counterexample to C4 as stated: with elapsed times 1 (backward) and 2
(forward), a unit momentum at the origin gives backward norm 1 and forward
norm 4 — the two sides' `norm_squared` are not equal. -/
theorem geodesic_norm_counterexample :
    (c4geo.update).backward_exponential.norm_squared ≠
      (c4geo.update).forward_exponential.norm_squared := by
  have hb : 1 < sideTimePoints (c4geo.t0 - c4geo.tmin)
      c4geo.concentration_of_time_points := by
    norm_num [sideTimePoints, pyInt, c4geo]
  have hf : 1 < sideTimePoints (c4geo.tmax - c4geo.t0)
      c4geo.concentration_of_time_points := by
    norm_num [sideTimePoints, pyInt, c4geo]
  rw [geo_update_backward_norm c4geo rfl hb,
    geo_update_forward_norm c4geo rfl hf]
  norm_num [c4geo, Exponential.init, gaussKernel, gaussConvolve, sqDist,
    smulMat, vscale, dotM, dotV, flat, vsum, Real.exp_zero]

def c4wit : Geodesic :=
  { concentration_of_time_points := 1
    t0 := 1
    tmin := 0
    tmax := 3
    control_points_t0 := [[0]]
    momenta_t0 := [[1]]
    template_data_t0 := none
    backward_exponential := Exponential.init idKernel
    forward_exponential := Exponential.init idKernel
    shoot_is_modified := true
    flow_is_modified := true }

/-- Witness for the amended C4 at a concrete input. -/
theorem geodesic_norm_relation_witness :
    c4wit.shoot_is_modified = true ∧
    1 < sideTimePoints (c4wit.t0 - c4wit.tmin)
      c4wit.concentration_of_time_points ∧
    1 < sideTimePoints (c4wit.tmax - c4wit.t0)
      c4wit.concentration_of_time_points ∧
    ((c4wit.update).get_norm_squared =
      .ok ((c4wit.update).forward_exponential.norm_squared) ∧
    (c4wit.tmax - c4wit.t0) ^ 2 *
        ((c4wit.update).backward_exponential.norm_squared).getD 0 =
      (c4wit.t0 - c4wit.tmin) ^ 2 *
        ((c4wit.update).forward_exponential.norm_squared).getD 0) :=
  ⟨rfl,
   by norm_num [sideTimePoints, pyInt, c4wit],
   by norm_num [sideTimePoints, pyInt, c4wit],
   geodesic_norm_relation c4wit rfl
     (by norm_num [sideTimePoints, pyInt, c4wit])
     (by norm_num [sideTimePoints, pyInt, c4wit])
     rfl (fun c q s w => rfl)⟩

/-! Nearest-neighbour lookup of the geodesic template trajectory (C5). -/

theorem linspace_length (a b : ℝ) (n : ℕ) : (linspace a b n).length = n := by
  unfold linspace
  rw [List.length_map, List.length_range]

theorem linspace_get (a b : ℝ) (n i : ℕ) (h : i < n) :
    (linspace a b n).get? i = some (a + i * (b - a) / ((n : ℝ) - 1)) := by
  unfold linspace
  rw [List.get?_map, List.get?_range h]
  rfl

theorem flowSteps_get_zero (k : Kernel) (u : Bool) (dt : ℝ) (td : Mat)
    (l : List (Mat × Mat)) : (flowSteps k u dt td l).get? 0 = some td := by
  cases l with
  | nil => rfl
  | cons p rest => cases rest <;> rfl

theorem flowSteps_length (k : Kernel) (u : Bool) (dt : ℝ) :
    ∀ (l : List (Mat × Mat)) (td : Mat),
      (flowSteps k u dt td l).length = max 1 l.length := by
  intro l
  induction l with
  | nil => intro td; rfl
  | cons p rest ih =>
    intro td
    cases rest with
    | nil => rfl
    | cons q rest2 =>
      simp only [flowSteps, List.length_cons]
      rw [ih]
      simp [Nat.max_eq_right]

theorem argminAux_ge (x : ℝ) :
    ∀ (t : List ℝ) (i best : ℕ), (∀ y ∈ t, x ≤ y) →
      argminAux t i best x = best := by
  intro t
  induction t with
  | nil => intro i best _; rfl
  | cons y u ih =>
    intro i best hall
    have hy : x ≤ y := hall y (by simp)
    rw [argminAux, if_neg (by linarith)]
    exact ih _ _ (fun z hz => hall z (by simp [hz]))

theorem argminAux_find :
    ∀ (t : List ℝ) (i best : ℕ) (bv : ℝ) (j : ℕ) (v : ℝ),
      t.get? j = some v → v < bv →
      (∀ j' x, t.get? j' = some x → j' ≠ j → v < x) →
      argminAux t i best bv = i + j := by
  intro t
  induction t with
  | nil => intro i best bv j v hj; simp at hj
  | cons x u ih =>
    intro i best bv j v hj hv hall
    cases j with
    | zero =>
      have hx : x = v := by simpa using hj
      subst hx
      have hge : ∀ y ∈ u, x ≤ y := by
        intro y hy
        obtain ⟨j', hj'⟩ := List.mem_iff_get?.1 hy
        exact (hall (j' + 1) y (by simpa using hj') (by omega)).le
      rw [argminAux, if_pos hv, argminAux_ge x u (i + 1) i hge]
      omega
    | succ m =>
      have hm : u.get? m = some v := by simpa using hj
      have hvx : v < x := hall 0 x rfl (by omega)
      have hall' : ∀ j' y, u.get? j' = some y → j' ≠ m → v < y := by
        intro j' y hy hne
        exact hall (j' + 1) y (by simpa using hy) (by omega)
      rw [argminAux]
      by_cases hxb : x < bv
      · rw [if_pos hxb, ih (i + 1) i x m v hm hvx hall']
        omega
      · rw [if_neg hxb, ih (i + 1) best bv m v hm hv hall']
        omega

theorem argminIdx_unique (l : List ℝ) (k : ℕ) (v : ℝ)
    (hk : l.get? k = some v)
    (hmin : ∀ j x, l.get? j = some x → j ≠ k → v < x) :
    argminIdx l = k := by
  cases l with
  | nil => simp at hk
  | cons x t =>
    cases k with
    | zero =>
      have hx : x = v := by simpa using hk
      subst hx
      have hge : ∀ y ∈ t, x ≤ y := by
        intro y hy
        obtain ⟨j', hj'⟩ := List.mem_iff_get?.1 hy
        exact (hmin (j' + 1) y (by simpa using hj') (by omega)).le
      rw [argminIdx, argminAux_ge x t 1 0 hge]
    | succ m =>
      have hm : t.get? m = some v := by simpa using hk
      have hvx : v < x := hmin 0 x rfl (by omega)
      have hall' : ∀ j' y, t.get? j' = some y → j' ≠ m → v < y := by
        intro j' y hy hne
        exact hmin (j' + 1) y (by simpa using hy) (by omega)
      rw [argminIdx, argminAux_find t 1 0 x m v hm hvx hall']
      omega

theorem update_template (s : Exponential) (td : Mat)
    (hsh : s.shoot_is_modified = true)
    (htd : s.initial_template_data = some td) :
    (s.update).template_data_t = some (flowSteps s.kernel s.use_rk2
      (1 / ((s.number_of_time_points : ℝ) - 1)) td
      (List.zip ((shootList s.kernel s.use_rk2
          (1 / ((s.number_of_time_points : ℝ) - 1))
          (s.number_of_time_points - 1)
          (s.initial_control_points, s.initial_momenta)).map Prod.fst)
        ((shootList s.kernel s.use_rk2
          (1 / ((s.number_of_time_points : ℝ) - 1))
          (s.number_of_time_points - 1)
          (s.initial_control_points, s.initial_momenta)).map Prod.snd))) := by
  unfold Exponential.update
  simp [hsh, htd, Exponential.flow, Exponential.shoot]

/-- A side updated with more than one time point holds a template
trajectory of that length whose first snapshot is the initial template. -/
theorem geo_update_backward_td (g : Geodesic) (td : Mat)
    (hsh : g.shoot_is_modified = true) (hfl : g.flow_is_modified = true)
    (htd : g.template_data_t0 = some td)
    (hb : 1 < sideTimePoints (g.t0 - g.tmin) g.concentration_of_time_points) :
    ∃ l, (g.update).backward_exponential.template_data_t = some l ∧
      l.length = sideTimePoints (g.t0 - g.tmin)
        g.concentration_of_time_points ∧
      l.get? 0 = some td := by
  simp only [Geodesic.update, hsh, hfl, Exponential.set_initial_momenta,
    Exponential.set_initial_control_points,
    Exponential.set_initial_template_data, if_true]
  rw [if_pos hb]
  rw [update_template _ td rfl htd]
  refine ⟨_, rfl, ?_, flowSteps_get_zero _ _ _ _ _⟩
  rw [flowSteps_length, List.length_zip, List.length_map, List.length_map,
    shootList_length]
  dsimp only
  omega

theorem geo_update_forward_td (g : Geodesic) (td : Mat)
    (hsh : g.shoot_is_modified = true) (hfl : g.flow_is_modified = true)
    (htd : g.template_data_t0 = some td)
    (hf : 1 < sideTimePoints (g.tmax - g.t0) g.concentration_of_time_points) :
    ∃ l, (g.update).forward_exponential.template_data_t = some l ∧
      l.length = sideTimePoints (g.tmax - g.t0)
        g.concentration_of_time_points ∧
      l.get? 0 = some td := by
  simp only [Geodesic.update, hsh, hfl, Exponential.set_initial_momenta,
    Exponential.set_initial_control_points,
    Exponential.set_initial_template_data, if_true]
  rw [if_pos hf]
  rw [update_template _ td rfl htd]
  refine ⟨_, rfl, ?_, flowSteps_get_zero _ _ _ _ _⟩
  rw [flowSteps_length, List.length_zip, List.length_map, List.length_map,
    shootList_length]
  dsimp only
  omega

/-- A side with more than one time point has a strictly positive elapsed
time (given a positive concentration). -/
theorem sideTimePoints_pos (d c : ℝ) (hc : 0 < c)
    (h : 1 < sideTimePoints d c) : 0 < d := by
  by_contra hble
  push_neg at hble
  have hdc : d * c ≤ 0 := mul_nonpos_of_nonpos_of_nonneg hble hc.le
  unfold sideTimePoints pyInt at h
  split_ifs at h with hx
  · have hfle : ⌊d * c + 1.5⌋ ≤ ⌊(1.5 : ℝ)⌋ := Int.floor_le_floor (by linarith)
    have h15 : ⌊(1.5 : ℝ)⌋ = 1 := by norm_num
    omega
  · push_neg at hx
    have : ⌈d * c + 1.5⌉ ≤ 0 := Int.ceil_le.mpr (by push_cast; linarith)
    omega

/-- Amended C5.  When both sides have more than one time point, the
nearest-neighbour lookup at `t0` on an updated geodesic returns exactly
the initial template snapshot (the index-0 snapshot of both halves). -/
theorem get_template_data_at_t0 (g : Geodesic) (td : Mat)
    (hsh : g.shoot_is_modified = true) (hfl : g.flow_is_modified = true)
    (htd : g.template_data_t0 = some td)
    (hc : 0 < g.concentration_of_time_points)
    (h1 : g.tmin ≤ g.t0) (h2 : g.t0 ≤ g.tmax)
    (hb : 1 < sideTimePoints (g.t0 - g.tmin) g.concentration_of_time_points)
    (hf : 1 < sideTimePoints (g.tmax - g.t0) g.concentration_of_time_points) :
    (g.update).get_template_data g.t0 = some td := by
  set Tb := sideTimePoints (g.t0 - g.tmin) g.concentration_of_time_points
    with hTbdef
  set Tf := sideTimePoints (g.tmax - g.t0) g.concentration_of_time_points
    with hTfdef
  have hbmin : g.tmin < g.t0 := by
    have := sideTimePoints_pos _ _ hc hb
    linarith
  have hfmax : g.t0 < g.tmax := by
    have := sideTimePoints_pos _ _ hc hf
    linarith
  obtain ⟨hTb, hTf⟩ := geo_update_time_points g
  obtain ⟨lb, hlb, hlbLen, hlb0⟩ := geo_update_backward_td g td hsh hfl htd hb
  obtain ⟨lf, hlf, _, _⟩ := geo_update_forward_td g td hsh hfl htd hf
  have htimes : (g.update).get_times =
      (linspace g.t0 g.tmin Tb).reverse ++
        (linspace g.t0 g.tmax Tf).drop 1 := by
    unfold Geodesic.get_times
    rw [hTb, hTf, if_pos hb, if_pos hf]
    rfl
  have htraj : (g.update).get_template_trajectory =
      lb.reverse ++ lf.drop 1 := by
    unfold Geodesic.get_template_trajectory
    rw [hTb, hTf, if_pos hb, if_pos hf, hlb, hlf]
    rfl
  have htimes_t0 : (g.update).get_times.get? (Tb - 1) = some g.t0 := by
    rw [htimes,
      List.get?_append (by rw [List.length_reverse, linspace_length]; omega),
      List.get?_reverse (by rw [linspace_length]; omega)]
    simp only [linspace_length]
    rw [show Tb - 1 - (Tb - 1) = 0 from Nat.sub_self _,
      linspace_get _ _ _ _ (by omega)]
    norm_num
  have htimes_ne : ∀ j y, (g.update).get_times.get? j = some y →
      j ≠ Tb - 1 → y ≠ g.t0 := by
    intro j y hy hne
    rw [htimes] at hy
    by_cases hj : j < Tb
    · rw [List.get?_append
          (by rw [List.length_reverse, linspace_length]; omega),
        List.get?_reverse (by rw [linspace_length]; omega)] at hy
      simp only [linspace_length] at hy
      rw [linspace_get _ _ _ _ (by omega)] at hy
      have hyv := Option.some.inj hy
      have hcast : (0 : ℝ) < ((Tb - 1 - j : ℕ) : ℝ) := by
        exact_mod_cast (show 0 < Tb - 1 - j by omega)
      have hden : (0 : ℝ) < (Tb : ℝ) - 1 := by
        have : (1 : ℝ) < (Tb : ℝ) := by exact_mod_cast hb
        linarith
      have hneg : ((Tb - 1 - j : ℕ) : ℝ) * (g.tmin - g.t0) / ((Tb : ℝ) - 1)
          < 0 := by
        apply div_neg_of_neg_of_pos _ hden
        exact mul_neg_of_pos_of_neg hcast (by linarith)
      intro hcontra
      rw [← hyv] at hcontra
      have : ((Tb - 1 - j : ℕ) : ℝ) * (g.tmin - g.t0) / ((Tb : ℝ) - 1) = 0 := by
        linarith [hcontra]
      linarith
    · push_neg at hj
      rw [List.get?_append_right
          (by rw [List.length_reverse, linspace_length]; omega)] at hy
      rw [List.get?_drop] at hy
      simp only [List.length_reverse, linspace_length] at hy
      have hidx : 1 + (j - Tb) < Tf := (List.get?_eq_some.1 hy).1.trans_eq
        (linspace_length _ _ _)
      rw [linspace_get _ _ _ _ hidx] at hy
      have hyv := Option.some.inj hy
      have hcast : (0 : ℝ) < ((1 + (j - Tb) : ℕ) : ℝ) := by
        exact_mod_cast Nat.succ_le_iff.1 (by omega)
      have hden : (0 : ℝ) < (Tf : ℝ) - 1 := by
        have : (1 : ℝ) < (Tf : ℝ) := by exact_mod_cast hf
        linarith
      have hpos : (0 : ℝ) <
          ((1 + (j - Tb) : ℕ) : ℝ) * (g.tmax - g.t0) / ((Tf : ℝ) - 1) := by
        apply div_pos _ hden
        exact mul_pos hcast (by linarith)
      intro hcontra
      rw [← hyv] at hcontra
      have : ((1 + (j - Tb) : ℕ) : ℝ) * (g.tmax - g.t0) / ((Tf : ℝ) - 1)
          = 0 := by linarith [hcontra]
      linarith
  have harg : argminIdx ((g.update).get_times.map
      (fun s => (s - g.t0) ^ 2)) = Tb - 1 := by
    apply argminIdx_unique _ _ 0
    · rw [List.get?_map, htimes_t0]
      norm_num
    · intro j x hx hne
      rw [List.get?_map] at hx
      cases hy : (g.update).get_times.get? j with
      | none => rw [hy] at hx; simp at hx
      | some y =>
        rw [hy] at hx
        simp only [Option.map_some'] at hx
        have hxv := Option.some.inj hx
        have hyne := htimes_ne j y hy hne
        rw [← hxv]
        have : y - g.t0 ≠ 0 := sub_ne_zero_of_ne hyne
        positivity
  unfold Geodesic.get_template_data
  rw [if_pos ⟨h1, h2⟩, harg, htraj,
    List.get?_append (by rw [List.length_reverse, hlbLen]; omega),
    List.get?_reverse (by rw [hlbLen]; omega)]
  rw [hlbLen, show Tb - 1 - (Tb - 1) = 0 from Nat.sub_self _]
  exact hlb0

def c5wit : Geodesic :=
  { concentration_of_time_points := 1
    t0 := 1
    tmin := 0
    tmax := 2
    control_points_t0 := [[0]]
    momenta_t0 := [[1]]
    template_data_t0 := some [[0]]
    backward_exponential := Exponential.init idKernel
    forward_exponential := Exponential.init idKernel
    shoot_is_modified := true
    flow_is_modified := true }

/-- Witness for the amended C5 at a concrete input with two points per
side. -/
theorem get_template_data_at_t0_witness :
    c5wit.shoot_is_modified = true ∧ c5wit.flow_is_modified = true ∧
    c5wit.template_data_t0 = some [[0]] ∧
    0 < c5wit.concentration_of_time_points ∧
    c5wit.tmin ≤ c5wit.t0 ∧ c5wit.t0 ≤ c5wit.tmax ∧
    1 < sideTimePoints (c5wit.t0 - c5wit.tmin)
      c5wit.concentration_of_time_points ∧
    1 < sideTimePoints (c5wit.tmax - c5wit.t0)
      c5wit.concentration_of_time_points ∧
    (c5wit.update).get_template_data c5wit.t0 = some [[0]] :=
  ⟨rfl, rfl, rfl, by norm_num [c5wit], by norm_num [c5wit],
   by norm_num [c5wit],
   by norm_num [sideTimePoints, pyInt, c5wit],
   by norm_num [sideTimePoints, pyInt, c5wit],
   get_template_data_at_t0 c5wit [[0]] rfl rfl rfl (by norm_num [c5wit])
     (by norm_num [c5wit]) (by norm_num [c5wit])
     (by norm_num [sideTimePoints, pyInt, c5wit])
     (by norm_num [sideTimePoints, pyInt, c5wit])⟩

def c5geo : Geodesic :=
  { concentration_of_time_points := 1
    t0 := 0
    tmin := 0
    tmax := 1
    control_points_t0 := [[0]]
    momenta_t0 := [[1]]
    template_data_t0 := some [[0]]
    backward_exponential := Exponential.init (gaussKernel 1)
    forward_exponential := Exponential.init (gaussKernel 1)
    shoot_is_modified := true
    flow_is_modified := true }

/-- Counterexample to C5 as stated: with `t0 = tmin` the backward side has
exactly one time point and is skipped, the spliced trajectory drops the
forward side's first snapshot, so the `t0` snapshot is absent and the
lookup returns the snapshot one forward step after `t0` (the point flowed
to `1`), not the initial snapshot `[[0]]`. -/
theorem get_template_data_t0_counterexample :
    c5geo.template_data_t0 = some [[0]] ∧
    (c5geo.update).get_template_data c5geo.t0 = some [[1]] ∧
    (some [[1] ] : Option Mat) ≠ some [[0]] := by
  refine ⟨rfl, ?_, by norm_num⟩
  norm_num [c5geo, Geodesic.update, Geodesic.get_template_data,
    Geodesic.get_times, Geodesic.get_template_trajectory, sideTimePoints,
    pyInt, linspace, argminIdx, argminAux, Exponential.update,
    Exponential.shoot, Exponential.flow, shootList, shootStep, euler_step,
    flowSteps, Exponential.set_initial_momenta,
    Exponential.set_initial_control_points,
    Exponential.set_initial_template_data, gaussKernel, gaussConvolve,
    gaussConvolveGradient, sqDist, matAdd, matSub, smulMat, vadd, vsub,
    vscale, dotM, dotV, flat, vsum, Exponential.init, Real.exp_zero,
    List.range_succ, List.range_zero, Function.comp]
  simp [List.range_succ, List.range_zero, argminIdx, argminAux,
    Function.comp]
  norm_num

/-! Determinism and cache reuse of parallel transport (C7). -/

theorem getD_append_cons {α : Type} (l1 l2 : List α) (x d : α) :
    (l1 ++ x :: l2).getD l1.length d = x := by
  rw [getD_get?, List.get?_append_right (le_refl _)]
  simp

/-- The Cholesky factors a filling transport run appends, one per step:
the factor of the Gram matrix at the next control-point snapshot.  They
depend only on the trajectory, not on the transported vector. -/
def ptFactors (kE : Kernel) (quads : List ((Mat × Mat) × (Mat × Mat))) :
    List Mat :=
  quads.map (fun q => potrf (kE.get_kernel_matrix q.2.1))

/-- The transported value a step produces depends only on the data of the
previous entry and the factor; neither the squeeze flag nor the previous
entry's shape affects it. -/
theorem ptStep_mat (kS kE : Kernel) (h eps ns tnorm : ℝ)
    (cp mom cp2 mom2 : Mat) (prev1 prev2 : TTen) (f : Mat) (b1 b2 : Bool)
    (hprev : prev1.mat = prev2.mat) :
    (ptStep kS kE h eps ns tnorm cp mom cp2 mom2 prev1 f b1).mat =
      (ptStep kS kE h eps ns tnorm cp mom cp2 mom2 prev2 f b2).mat := by
  unfold ptStep
  cases b1 <;> cases b2 <;> simp [TTen.squeeze, hprev]

theorem ptLoop_cache (kS kE : Kernel) (h eps ns tnorm : ℝ) (tm1 : ℕ) :
    ∀ (quads : List ((Mat × Mat) × (Mat × Mat))) (prev : TTen)
      (cache : List Mat) (i : ℕ), cache.length + quads.length = tm1 →
      (ptLoop kS kE h eps ns tnorm tm1 quads prev cache i).2 =
        cache ++ ptFactors kE quads := by
  intro quads
  induction quads with
  | nil => intro prev cache i _; simp [ptLoop, ptFactors]
  | cons q rest ih =>
    intro prev cache i hlen
    obtain ⟨⟨cp, mom⟩, ⟨cp2, mom2⟩⟩ := q
    rw [ptLoop, if_neg (by simp at hlen ⊢; omega)]
    have hrec := ih (ptStep kS kE h eps ns tnorm cp mom cp2 mom2 prev
        (potrf (kE.get_kernel_matrix cp2)) true)
      (cache ++ [potrf (kE.get_kernel_matrix cp2)]) (i + 1)
      (by simp at hlen ⊢; omega)
    dsimp only
    rw [hrec]
    simp [ptFactors]

theorem ptLoop_two (kS kE : Kernel) (h eps ns tnorm : ℝ) (tm1 : ℕ) :
    ∀ (quads : List ((Mat × Mat) × (Mat × Mat))) (prev1 prev2 : TTen)
      (cache full : List Mat) (i : ℕ),
      prev1.mat = prev2.mat → cache.length = i →
      i + quads.length = tm1 →
      full = cache ++ ptFactors kE quads →
      ((ptLoop kS kE h eps ns tnorm tm1 quads prev1 cache i).1).map TTen.mat =
        ((ptLoop kS kE h eps ns tnorm tm1 quads prev2 full i).1).map
          TTen.mat ∧
      (ptLoop kS kE h eps ns tnorm tm1 quads prev2 full i).2 = full := by
  intro quads
  induction quads with
  | nil =>
    intro prev1 prev2 cache full i _ _ _ hfull
    exact ⟨rfl, rfl⟩
  | cons q rest ih =>
    intro prev1 prev2 cache full i hprev hci hlen hfull
    obtain ⟨⟨cp, mom⟩, ⟨cp2, mom2⟩⟩ := q
    have hlen' : i + (rest.length + 1) = tm1 := by simpa using hlen
    have hne : cache.length ≠ tm1 := by omega
    have hfull_len : full.length = tm1 := by
      rw [hfull]
      simp [ptFactors]
      omega
    have hgetD : full.getD i [] = potrf (kE.get_kernel_matrix cp2) := by
      rw [hfull, ptFactors, List.map_cons, ← hci]
      exact getD_append_cons _ _ _ _
    have hmm : (ptStep kS kE h eps ns tnorm cp mom cp2 mom2 prev1
        (potrf (kE.get_kernel_matrix cp2)) true).mat =
        (ptStep kS kE h eps ns tnorm cp mom cp2 mom2 prev2
          (full.getD i []) false).mat := by
      rw [hgetD]
      exact ptStep_mat kS kE h eps ns tnorm cp mom cp2 mom2 prev1 prev2 _
        true false hprev
    have hrec := ih
      (ptStep kS kE h eps ns tnorm cp mom cp2 mom2 prev1
        (potrf (kE.get_kernel_matrix cp2)) true)
      (ptStep kS kE h eps ns tnorm cp mom cp2 mom2 prev2
        (full.getD i []) false)
      (cache ++ [potrf (kE.get_kernel_matrix cp2)]) full (i + 1)
      hmm (by simp [hci]) (by omega)
      (by rw [hfull]; simp [ptFactors])
    rw [ptLoop, ptLoop, if_neg hne, if_pos hfull_len]
    dsimp only
    simp only [List.map_cons]
    exact ⟨congrArg₂ List.cons hmm hrec.1, hrec.2⟩

theorem map_mat_zipWith (sp : ℝ) :
    ∀ (t1 t2 : List TTen) (ms : List Mat),
      t1.map TTen.mat = t2.map TTen.mat →
      (List.zipWith (fun (t : TTen) (m : Mat) =>
        (⟨t.shape, matAdd t.mat (smulMat sp m)⟩ : TTen)) t1 ms).map TTen.mat =
      (List.zipWith (fun (t : TTen) (m : Mat) =>
        (⟨t.shape, matAdd t.mat (smulMat sp m)⟩ : TTen)) t2 ms).map
          TTen.mat := by
  intro t1
  induction t1 with
  | nil =>
    intro t2 ms h
    cases t2 with
    | nil => simp
    | cons b2 u2 => simp at h
  | cons a u ih =>
    intro t2 ms h
    cases t2 with
    | nil => simp at h
    | cons b2 u2 =>
      cases ms with
      | nil => simp
      | cons m ms2 =>
        simp only [List.map_cons, List.cons.injEq] at h
        simp only [List.zipWith_cons_cons, List.map_cons, List.cons.injEq]
        exact ⟨by rw [h.1], ih u2 ms2 h.2⟩

/-- Amended C7.  On an updated `Exponential` (clean shoot, empty cache,
full-length trajectories), two consecutive `parallel_transport` calls with
identical arguments return trajectories with identical transported values;
the second call reuses the Cholesky factors built by the first and leaves
the cache unchanged.  (The claim's "same array shapes" part fails: only
the cache-filling branch squeezes its solve result — see the
counterexample.) -/
theorem parallel_transport_deterministic (s : Exponential) (v : Mat)
    (b : Bool) (hstale : s.shoot_is_modified = false)
    (hcache : s.cholesky_kernel_matrices = [])
    (hlc : s.control_points_t.length = s.number_of_time_points)
    (hlm : s.momenta_t.length = s.number_of_time_points)
    (hT : 1 ≤ s.number_of_time_points)
    (r1 r2 : List TTen) (s1 s2 : Exponential)
    (h1 : s.parallel_transport v b = .ok (r1, s1))
    (h2 : s1.parallel_transport v b = .ok (r2, s2)) :
    r1.map TTen.mat = r2.map TTen.mat ∧
    s2.cholesky_kernel_matrices = s1.cholesky_kernel_matrices := by
  cases b <;>
  · unfold Exponential.parallel_transport at h1 h2
    rw [hstale, hcache] at h1
    simp only [Bool.false_eq_true, if_false, eq_self_iff_true, if_true] at h1
    split_ifs at h1 with hshape horth
    rw [Except.ok.injEq, Prod.mk.injEq] at h1
    obtain ⟨hX, hY⟩ := h1
    subst hX
    subst hY
    dsimp only at h2
    simp only [Bool.false_eq_true, if_false, eq_self_iff_true, if_true] at h2
    split_ifs at h2 with hshape2 horth2
    rw [Except.ok.injEq, Prod.mk.injEq] at h2
    obtain ⟨hX2, hY2⟩ := h2
    subst hX2
    subst hY2
    set gk := gaussKernel s.kernel.kernel_width with hgk
    set vOrth := matSub v (smulMat (dotM v (gk.convolve
      s.initial_control_points s.initial_control_points s.initial_momenta) /
      s.norm_squared.getD 0) s.initial_momenta) with hvo
    set quads := (s.control_points_t.zip s.momenta_t).zip
      (s.control_points_t.zip s.momenta_t).tail with hqd
    set st := ofMat vOrth with hstt
    set tn := qform gk s.initial_control_points vOrth with htn
    set L1 := ptLoop s.kernel gk (1 / ((s.number_of_time_points : ℝ) - 1))
      (1 / ((s.number_of_time_points : ℝ) - 1)) (s.norm_squared.getD 0) tn
      (s.number_of_time_points - 1) quads st [] 0 with hL1
    have hq : quads.length = s.number_of_time_points - 1 := by
      rw [hqd]
      simp [List.length_zip, hlc, hlm]
    have hfull := ptLoop_cache s.kernel gk
      (1 / ((s.number_of_time_points : ℝ) - 1))
      (1 / ((s.number_of_time_points : ℝ) - 1))
      (s.norm_squared.getD 0) tn (s.number_of_time_points - 1)
      quads st [] 0 (by simpa using hq)
    rw [← hL1] at hfull
    have hTwo := ptLoop_two s.kernel gk
      (1 / ((s.number_of_time_points : ℝ) - 1))
      (1 / ((s.number_of_time_points : ℝ) - 1))
      (s.norm_squared.getD 0) tn (s.number_of_time_points - 1)
      quads st st [] L1.2 0 rfl rfl (by simpa using hq) hfull
    rw [← hL1] at hTwo
    refine ⟨?_, hTwo.2⟩
    first
      | (simp only [List.map_cons]
         exact congrArg₂ List.cons rfl hTwo.1)
      | (apply map_mat_zipWith
         simp only [List.map_cons]
         exact congrArg₂ List.cons rfl hTwo.1)

def c7base : Exponential :=
  { kernel := gaussKernel 1
    number_of_time_points := 2
    initial_control_points := [[0, 0]]
    control_points_t := []
    initial_momenta := [[1, 0]]
    momenta_t := []
    initial_template_data := none
    template_data_t := none
    shoot_is_modified := true
    flow_is_modified := true
    use_rk2 := false
    norm_squared := none
    cholesky_kernel_matrices := [] }

def c7s : Exponential := c7base.update

/-- The state after the first transport call: only the cache grew. -/
def c7S1 : Exponential :=
  { kernel := gaussKernel 1
    number_of_time_points := 2
    initial_control_points := [[0, 0]]
    control_points_t := [[[0, 0]], [[1, 0]]]
    initial_momenta := [[1, 0]]
    momenta_t := [[[1, 0]], [[1, 0]]]
    initial_template_data := none
    template_data_t := none
    shoot_is_modified := false
    flow_is_modified := true
    use_rk2 := false
    norm_squared := some 1
    cholesky_kernel_matrices := [[[1]]] }

theorem c7s_eq : c7s = { c7S1 with cholesky_kernel_matrices := [] } := by
  norm_num [c7s, c7base, c7S1, Exponential.update, Exponential.shoot,
    shootList, shootStep, euler_step, gaussKernel, gaussConvolve,
    gaussConvolveGradient, sqDist, matAdd, matSub, smulMat, vadd, vsub,
    vscale, dotM, dotV, flat, vsum, Real.exp_zero]

theorem c7_first_call : c7s.parallel_transport [[0, 1]] false =
    .ok ([⟨[1, 2], [[0, 1]]⟩, ⟨[2], [[0, 1]]⟩], c7S1) := by
  rw [c7s_eq]
  norm_num [Exponential.parallel_transport, ptLoop, ptStep,
    rk2_step_position, potrf, potrs, linSolve, forwardElim, backSub,
    elimRow, gaussKernel, gaussConvolve, gaussConvolveGradient,
    gaussKernelMatrix, sqDist, matShape, ofMat, TTen.squeeze, qform,
    renormalize, dotM, dotV, flat, vsum, vadd, vsub, vscale, matAdd,
    matSub, smulMat, Real.exp_zero, List.replicate_succ, List.replicate_zero,
    c7S1]

theorem c7_second_call : c7S1.parallel_transport [[0, 1]] false =
    .ok ([⟨[1, 2], [[0, 1]]⟩, ⟨[1, 2], [[0, 1]]⟩], c7S1) := by
  norm_num [Exponential.parallel_transport, ptLoop, ptStep,
    rk2_step_position, potrf, potrs, linSolve, forwardElim, backSub,
    elimRow, gaussKernel, gaussConvolve, gaussConvolveGradient,
    gaussKernelMatrix, sqDist, matShape, ofMat, TTen.squeeze, qform,
    renormalize, dotM, dotV, flat, vsum, vadd, vsub, vscale, matAdd,
    matSub, smulMat, Real.exp_zero, List.replicate_succ, List.replicate_zero,
    c7S1]

/-- Counterexample to C7 as stated: two consecutive transport calls with
identical arguments return trajectories with identical values but
different array shapes — the first (cache-filling) call squeezes its solve
results (shape `[2]` for the single 2-D control point), the second
(cache-reusing) call does not (shape `[1, 2]`). -/
theorem parallel_transport_shape_counterexample :
    (match c7s.parallel_transport [[0, 1]] false with
      | .ok (r, _) => r
      | .error _ => []) ≠
    (match (match c7s.parallel_transport [[0, 1]] false with
        | .ok (_, t) => t
        | .error _ => c7s).parallel_transport [[0, 1]] false with
      | .ok (r, _) => r
      | .error _ => []) := by
  rw [c7_first_call]
  simp only []
  rw [c7_second_call]
  simp

/-- Witness for the amended C7 at the same concrete input. -/
theorem parallel_transport_deterministic_witness :
    c7s.shoot_is_modified = false ∧
    c7s.cholesky_kernel_matrices = [] ∧
    c7s.control_points_t.length = c7s.number_of_time_points ∧
    c7s.momenta_t.length = c7s.number_of_time_points ∧
    1 ≤ c7s.number_of_time_points ∧
    ([(⟨[1, 2], [[0, 1]]⟩ : TTen), ⟨[2], [[0, 1]]⟩].map TTen.mat =
      [(⟨[1, 2], [[0, 1]]⟩ : TTen), ⟨[1, 2], [[0, 1]]⟩].map TTen.mat ∧
    c7S1.cholesky_kernel_matrices = c7S1.cholesky_kernel_matrices) :=
  ⟨by simp [c7s_eq, c7S1], by simp [c7s_eq, c7S1], by simp [c7s_eq, c7S1],
   by simp [c7s_eq, c7S1], by simp [c7s_eq, c7S1],
   parallel_transport_deterministic c7s [[0, 1]] false
     (by simp [c7s_eq, c7S1]) (by simp [c7s_eq, c7S1])
     (by simp [c7s_eq, c7S1]) (by simp [c7s_eq, c7S1])
     (by simp [c7s_eq, c7S1])
     _ _ _ _ c7_first_call c7_second_call⟩

end

end Deformetrica
